import Mathlib

/-!
# PrimeCareManager — billing / inventory / reporting core

Shallow embedding of the billing, inventory and reporting subsystem of the
PrimeCareManager clinic application (`server/storage.ts`, `shared/schema.ts`,
and the `/api/reports` route of `server/routes.ts`), together with proofs of
the specification's claims about it.

Modelling conventions:
* All monetary fields are `decimal(10,2)` columns transmitted as decimal
  strings; they are modelled as exact rationals (`ℚ`), the value semantics of
  the decimal columns.  `parseFloat(x)` / `x.toString()` round-trips on these
  values are modelled as the identity.
* Timestamps (`timestamp` columns, JS `Date` values) are modelled as an
  abstract linear time `Int` (e.g. milliseconds since an epoch); the calendar
  arithmetic performed by `new Date(...)` is abstracted into explicit
  range-endpoint parameters, as noted at each operation.
* Table rows live in lists inside a `Store`; a `where eq(id, …)` update is a
  map over the list guarded by the id, and an insert appends a row whose id is
  drawn from the store's identity counter `nextId` (the database uses one
  identity sequence per table; a single counter also yields globally unique
  ids, which is all the claims depend on).
* A TypeScript `async` storage method can signal failure only by rejecting its
  promise (`throw`); methods are therefore embedded in `Except String`, with
  `.error` for a thrown error and `.ok` for normal resolution.
-/

/-- A row of the `patients` table (`shared/schema.ts`). -/
structure Patient where
  id : Nat
  name : String
  phone : String
  registrationDate : Int
deriving DecidableEq, Repr

/-- A row of the `visits` table (`shared/schema.ts`). -/
structure Visit where
  id : Nat
  patientId : Nat
  visitDate : Int
  complaints : String
  diagnosis : String
  treatment : Option String
  prescription : Option String
deriving DecidableEq, Repr

/-- A row of the `medicines` table (`shared/schema.ts`).  `quantity` is an
integer column that the code may drive negative, hence `Int`; `totalEarnings`
is a nullable decimal column (`.default("0")` without `.notNull()`), hence
`Option ℚ`. -/
structure Medicine where
  id : Nat
  name : String
  price : ℚ
  quantity : Int
  totalEarnings : Option ℚ
deriving DecidableEq, Repr

/-- A row of the `treatments` table (`shared/schema.ts`). -/
structure Treatment where
  id : Nat
  name : String
  price : ℚ
deriving DecidableEq, Repr

/-- A row of the `bills` table (`shared/schema.ts`): decimal columns
`totalAmount`, `paidAmount`, `pendingAmount` and a text `status`
(`"paid"` or `"pending"`). -/
structure Bill where
  id : Nat
  patientId : Nat
  billDate : Int
  totalAmount : ℚ
  paidAmount : ℚ
  pendingAmount : ℚ
  status : String
deriving DecidableEq, Repr

/-- A row of the `bill_treatment_items` table (`shared/schema.ts`). -/
structure BillTreatmentItem where
  id : Nat
  billId : Nat
  treatmentId : Nat
  treatmentName : String
  amount : ℚ
deriving DecidableEq, Repr

/-- A row of the `bill_medicine_items` table (`shared/schema.ts`). -/
structure BillMedicineItem where
  id : Nat
  billId : Nat
  medicineId : Nat
  medicineName : String
  quantity : Int
  unitPrice : ℚ
  amount : ℚ
deriving DecidableEq, Repr

/-- A row of the `expenses` table (`shared/schema.ts`). -/
structure Expense where
  id : Nat
  date : Int
  expenseType : String
  description : Option String
  amount : ℚ
deriving DecidableEq, Repr

/-- `InsertBill` (`insertBillSchema`): a `bills` row without `id` and
`billDate`.  `createBill` overrides `totalAmount`, `pendingAmount` and
`status`, so only the caller-relevant fields are carried. -/
structure InsertBill where
  patientId : Nat
  paidAmount : ℚ
deriving DecidableEq, Repr

/-- `InsertBillTreatmentItem` (`insertBillTreatmentItemSchema`); the `billId`
supplied by the caller is overridden by `createBill`, so it is omitted. -/
structure InsertBillTreatmentItem where
  treatmentId : Nat
  treatmentName : String
  amount : ℚ
deriving DecidableEq, Repr

/-- `InsertBillMedicineItem` (`insertBillMedicineItemSchema`); the `billId`
supplied by the caller is overridden by `createBill`, so it is omitted. -/
structure InsertBillMedicineItem where
  medicineId : Nat
  medicineName : String
  quantity : Int
  unitPrice : ℚ
  amount : ℚ
deriving DecidableEq, Repr

/-- The persistent store: one list per table, plus the identity counter. -/
structure Store where
  patients : List Patient
  visits : List Visit
  medicines : List Medicine
  treatments : List Treatment
  bills : List Bill
  billTreatmentItems : List BillTreatmentItem
  billMedicineItems : List BillMedicineItem
  expenses : List Expense
  nextId : Nat
deriving DecidableEq, Repr

/-- The empty store. -/
def Store.empty : Store :=
  { patients := [], visits := [], medicines := [], treatments := [],
    bills := [], billTreatmentItems := [], billMedicineItems := [],
    expenses := [], nextId := 0 }

/-- `DatabaseStorage.updateMedicineStock` (`server/storage.ts` lines
154–162): select the medicine row by id; if present, set
`quantity = medicine.quantity - quantityUsed` and
`totalEarnings = parseFloat(medicine.totalEarnings || "0") + earnings` on
every row matching the id; if absent, fall through and resolve normally.
Both branches resolve (the function body contains no `throw`). -/
def updateMedicineStock (s : Store) (id : Nat) (quantityUsed : Int)
    (earnings : ℚ) : Except String Store :=
  match s.medicines.find? (fun m => m.id == id) with
  | some medicine =>
      .ok { s with medicines := s.medicines.map (fun m =>
        if m.id == id then
          { m with quantity := medicine.quantity - quantityUsed,
                   totalEarnings := some (medicine.totalEarnings.getD 0 + earnings) }
        else m) }
  | none => .ok s

/-- `db.insert(billTreatmentItems).values({...item, billId})` inside
`createBill`: append the row with a fresh id. -/
def insertTreatmentItemRow (s : Store) (billId : Nat)
    (item : InsertBillTreatmentItem) : Store :=
  { s with
    billTreatmentItems := s.billTreatmentItems ++
      [{ id := s.nextId, billId := billId, treatmentId := item.treatmentId,
         treatmentName := item.treatmentName, amount := item.amount }],
    nextId := s.nextId + 1 }

/-- `db.insert(billMedicineItems).values({...item, billId})` inside
`createBill`: append the row with a fresh id. -/
def insertMedicineItemRow (s : Store) (billId : Nat)
    (item : InsertBillMedicineItem) : Store :=
  { s with
    billMedicineItems := s.billMedicineItems ++
      [{ id := s.nextId, billId := billId, medicineId := item.medicineId,
         medicineName := item.medicineName, quantity := item.quantity,
         unitPrice := item.unitPrice, amount := item.amount }],
    nextId := s.nextId + 1 }

/-- `DatabaseStorage.createBill` (`server/storage.ts` lines 225–265).
`now` models the `defaultNow()` value the database assigns to `billDate`.
The steps mirror the source: sum the treatment-line amounts, sum the
medicine-line amounts, compute `totalAmount`, `pendingAmount` and `status`,
insert the bill row, insert each treatment item, then for each medicine line
insert the item row and invoke `updateMedicineStock`. -/
def createBill (s : Store) (now : Int) (billData : InsertBill)
    (treatmentItemsData : List InsertBillTreatmentItem)
    (medicineItemsData : List InsertBillMedicineItem) :
    Except String (Store × Bill) := do
  let treatmentTotal := treatmentItemsData.foldl (fun sum item => sum + item.amount) 0
  let medicineTotal := medicineItemsData.foldl (fun sum item => sum + item.amount) 0
  let totalAmount := treatmentTotal + medicineTotal
  let paidAmount := billData.paidAmount
  let pendingAmount := totalAmount - paidAmount
  let created : Bill :=
    { id := s.nextId, patientId := billData.patientId, billDate := now,
      totalAmount := totalAmount, paidAmount := paidAmount,
      pendingAmount := pendingAmount,
      status := if pendingAmount ≤ 0 then "paid" else "pending" }
  let s1 : Store := { s with bills := s.bills ++ [created], nextId := s.nextId + 1 }
  let s2 := treatmentItemsData.foldl (fun acc item =>
    insertTreatmentItemRow acc created.id item) s1
  let s3 ← medicineItemsData.foldlM (fun acc item =>
    updateMedicineStock (insertMedicineItemRow acc created.id item)
      item.medicineId item.quantity item.amount) s2
  return (s3, created)

/-- `DatabaseStorage.settlePayment` (`server/storage.ts` lines 267–281):
select the bill by id, throw `"Bill not found"` if absent; otherwise compute
`newPaidAmount = bill.paidAmount + amount`,
`newPendingAmount = bill.totalAmount - newPaidAmount`, and update
`paidAmount`, `pendingAmount`, `status` on every row matching the id,
returning the updated bill. -/
def settlePayment (s : Store) (billId : Nat) (amount : ℚ) :
    Except String (Store × Bill) :=
  match s.bills.find? (fun b => b.id == billId) with
  | none => .error "Bill not found"
  | some bill =>
      let newPaidAmount := bill.paidAmount + amount
      let newPendingAmount := bill.totalAmount - newPaidAmount
      let updated : Bill :=
        { bill with paidAmount := newPaidAmount,
                    pendingAmount := newPendingAmount,
                    status := if newPendingAmount ≤ 0 then "paid" else "pending" }
      .ok ({ s with bills := s.bills.map (fun b =>
               if b.id == billId then updated else b) }, updated)

/-- A finite sequence of `settlePayment` calls, applied in order; a call that
throws leaves the store unchanged (the route reports the error and the store
keeps its state). -/
def settleAll (s : Store) (calls : List (Nat × ℚ)) : Store :=
  calls.foldl (fun st c =>
    match settlePayment st c.1 c.2 with
    | .ok r => r.1
    | .error _ => st) s

/-- The result record of `DatabaseStorage.getMonthlyReport`
(`server/storage.ts` lines 351–411). -/
structure MonthlyReport where
  treatmentEarnings : ℚ
  medicineEarnings : ℚ
  totalEarnings : ℚ
  totalExpenses : ℚ
  profit : ℚ
  patientCount : Nat
  billCount : Nat
deriving DecidableEq, Repr

/-- `DatabaseStorage.getMonthlyReport` (`server/storage.ts` lines 351–411).
`startDate` and `endDate` model the bounds the source computes from the
`"YYYY-MM"` string: `new Date(year, mon-1, 1)` (first day, 00:00:00) and
`new Date(year, mon, 0, 23, 59, 59)` (last day, 23:59:59); both `gte` and
`lte` comparisons are inclusive.  The body mirrors the source: filter bills
by `billDate`, accumulate each bill's treatment-item and medicine-item
amounts, sum in-range expenses, and count distinct `patientId` over in-range
visits (`new Set(...).size` is the length after duplicate removal). -/
def getMonthlyReport (s : Store) (startDate endDate : Int) : MonthlyReport :=
  let monthBills := s.bills.filter (fun b =>
    startDate ≤ b.billDate && b.billDate ≤ endDate)
  let treatmentEarnings := monthBills.foldl (fun acc bill =>
    acc + (s.billTreatmentItems.filter (fun i => i.billId == bill.id)).foldl
      (fun sum i => sum + i.amount) 0) 0
  let medicineEarnings := monthBills.foldl (fun acc bill =>
    acc + (s.billMedicineItems.filter (fun i => i.billId == bill.id)).foldl
      (fun sum i => sum + i.amount) 0) 0
  let totalEarnings := treatmentEarnings + medicineEarnings
  let monthExpenses := s.expenses.filter (fun e =>
    startDate ≤ e.date && e.date ≤ endDate)
  let totalExpensesAmount := monthExpenses.foldl (fun sum e => sum + e.amount) 0
  let profit := totalEarnings - totalExpensesAmount
  let monthVisits := s.visits.filter (fun v =>
    startDate ≤ v.visitDate && v.visitDate ≤ endDate)
  let patientCount := ((monthVisits.map (fun v => v.patientId)).dedup).length
  { treatmentEarnings := treatmentEarnings,
    medicineEarnings := medicineEarnings,
    totalEarnings := totalEarnings,
    totalExpenses := totalExpensesAmount,
    profit := profit,
    patientCount := patientCount,
    billCount := monthBills.length }

/-- The result record of `DatabaseStorage.getDashboardStats`
(`server/storage.ts` lines 315–348). -/
structure DashboardStats where
  totalPatients : Nat
  todayPatients : Nat
  pendingPayments : Nat
  totalRevenue : ℚ
deriving DecidableEq, Repr

/-- `DatabaseStorage.getDashboardStats` (`server/storage.ts` lines 315–348).
`today` models the `new Date()` truncated to midnight and `tomorrow` the same
date plus one day; the source filters visits with
`gte(visits.visitDate, today)` AND `lte(visits.visitDate, tomorrow)` — both
bounds inclusive — and counts distinct `patientId` among them. -/
def getDashboardStats (s : Store) (today tomorrow : Int) : DashboardStats :=
  let todayVisits := s.visits.filter (fun v =>
    today ≤ v.visitDate && v.visitDate ≤ tomorrow)
  let todayPatients := ((todayVisits.map (fun v => v.patientId)).dedup).length
  let pendingBills := s.bills.filter (fun b => b.status == "pending")
  let totalRevenue := s.bills.foldl (fun sum b => sum + b.paidAmount) 0
  { totalPatients := s.patients.length,
    todayPatients := todayPatients,
    pendingPayments := pendingBills.length,
    totalRevenue := totalRevenue }

/-- The response of `GET /api/reports` (`server/routes.ts`): the selected
month's report, the prior month's report, and six labelled reports.  Months
are modelled as a linear index `Int` (year*12 + month), on which the
`subMonths` library call is subtraction. -/
structure ReportsResponse where
  currentMonthLabel : Int
  currentMonth : MonthlyReport
  lastMonthLabel : Int
  lastMonth : MonthlyReport
  last6Months : List (Int × MonthlyReport)
deriving DecidableEq, Repr

/-- The `GET /api/reports` handler (`server/routes.ts`, `registerRoutes`).
`monthRange` models the `"YYYY-MM"`-to-date-range conversion that
`getMonthlyReport` performs internally (first-day/last-day bounds of the
given month index); `selectedMonth` is the query parameter and `today` the
month of `new Date()` at request time.  The source computes `currentMonth`
from `selectedMonth`, `lastMonth` from `subMonths(selectedMonth, 1)`, and
`last6Months` from `subMonths(new Date(), i)` for `i = 5, 4, …, 0`, labelling
each entry with that date's month. -/
def getReports (s : Store) (monthRange : Int → Int × Int)
    (selectedMonth today : Int) : ReportsResponse :=
  let report := fun (m : Int) => getMonthlyReport s (monthRange m).1 (monthRange m).2
  let last6 := (List.range 6).map (fun k =>
    let date := today - (5 - (k : Int))
    (date, report date))
  { currentMonthLabel := selectedMonth,
    currentMonth := report selectedMonth,
    lastMonthLabel := selectedMonth - 1,
    lastMonth := report (selectedMonth - 1),
    last6Months := last6 }

/-- The bill-state invariant claimed by the specification:
`pendingAmount = totalAmount - paidAmount` and
`status = "paid"` exactly when `pendingAmount ≤ 0`. -/
def billOk (b : Bill) : Prop :=
  b.pendingAmount = b.totalAmount - b.paidAmount ∧
    (b.status = "paid" ↔ b.pendingAmount ≤ 0)

/-- Specification-side count of distinct `patientId` values among visits in
an inclusive date range, stated with a `Finset` so that "distinct" is by
definition set-cardinality. -/
def distinctPatientsInRange (s : Store) (startDate endDate : Int) : Nat :=
  ((s.visits.filter (fun v =>
    startDate ≤ v.visitDate && v.visitDate ≤ endDate)).map
      (fun v => v.patientId)).toFinset.card

/-- Specification-side count of distinct `patientId` values among visits in
the half-open range `[today, tomorrow)`, as claimed for the dashboard. -/
def distinctPatientsHalfOpen (s : Store) (today tomorrow : Int) : Nat :=
  ((s.visits.filter (fun v =>
    today ≤ v.visitDate && v.visitDate < tomorrow)).map
      (fun v => v.patientId)).toFinset.card

/-! ## General helper lemmas -/

/-- Summation in accumulator style equals the sum of the mapped list. -/
theorem foldl_add_map {α : Type} (f : α → ℚ) :
    ∀ (l : List α) (a : ℚ),
      l.foldl (fun acc x => acc + f x) a = a + (l.map f).sum := by
  intro l
  induction l with
  | nil => intro a; simp
  | cons x t ih =>
      intro a
      simp [List.foldl_cons, ih, add_assoc]

/-- `find?` commutes with a map that does not change the predicate's value. -/
theorem find?_map_pres {α : Type} (f : α → α) (p : α → Bool)
    (hf : ∀ x, p (f x) = p x) :
    ∀ l : List α, (l.map f).find? p = (l.find? p).map f := by
  intro l
  induction l with
  | nil => rfl
  | cons a t ih =>
      cases hpa : p a with
      | false => simp [List.find?, hf, hpa, ih]
      | true => simp [List.find?, hf, hpa]

/-- A bill returned by `find?` on the id predicate carries that id. -/
theorem find?_bill_id {l : List Bill} {bid : Nat} {b : Bill}
    (h : l.find? (fun x => x.id == bid) = some b) : b.id = bid := by
  have := List.find?_some h
  simpa using this

/-- A medicine returned by `find?` on the id predicate carries that id. -/
theorem find?_medicine_id {l : List Medicine} {mid : Nat} {m : Medicine}
    (h : l.find? (fun x => x.id == mid) = some m) : m.id = mid := by
  have := List.find?_some h
  simpa using this

/-! ## C1: bill totals -/

/-- C1 — For every `createBill` call, the `totalAmount` stored on the created
bill equals the sum of all submitted treatment-line amounts plus all submitted
medicine-line amounts, exactly. -/
theorem createBill_totalAmount_eq_sum
    (s : Store) (now : Int) (billData : InsertBill)
    (tD : List InsertBillTreatmentItem) (mD : List InsertBillMedicineItem)
    (s' : Store) (b : Bill)
    (h : createBill s now billData tD mD = .ok (s', b)) :
    b.totalAmount =
      (tD.map (fun i => i.amount)).sum + (mD.map (fun i => i.amount)).sum := by
  unfold createBill at h
  simp only [bind, Except.bind, pure, Except.pure] at h
  split at h
  · exact absurd h (by simp)
  · injection h with h
    injection h with h1 h2
    subst h2
    simp [foldl_add_map]

/-- The store produced by the concrete `createBill` call of the C1 witness. -/
def demoStoreC1 : Store :=
  { patients := [], visits := [], medicines := [], treatments := [],
    bills := [⟨0, 1, 0, 100, 40, 60, "pending"⟩],
    billTreatmentItems := [⟨1, 0, 1, "X", 100⟩],
    billMedicineItems := [], expenses := [], nextId := 2 }

/-- The bill produced by the concrete `createBill` call of the C1 witness. -/
def demoBillC1 : Bill := ⟨0, 1, 0, 100, 40, 60, "pending"⟩

/-- Witness for C1: a concrete `createBill` call (one treatment line of
100, paid 40) evaluated end to end. -/
theorem createBill_totalAmount_eq_sum_witness :
    createBill Store.empty 0 ⟨1, 40⟩ [⟨1, "X", 100⟩] [] = .ok (demoStoreC1, demoBillC1) ∧
    demoBillC1.totalAmount =
      (([⟨1, "X", 100⟩] : List InsertBillTreatmentItem).map (fun i => i.amount)).sum +
      (([] : List InsertBillMedicineItem).map (fun i => i.amount)).sum :=
  ⟨by norm_num [createBill, insertTreatmentItemRow, Store.empty, demoStoreC1,
      demoBillC1, bind, Except.bind, pure, Except.pure],
   createBill_totalAmount_eq_sum Store.empty 0 ⟨1, 40⟩ [⟨1, "X", 100⟩] []
     demoStoreC1 demoBillC1
     (by norm_num [createBill, insertTreatmentItemRow, Store.empty, demoStoreC1,
        demoBillC1, bind, Except.bind, pure, Except.pure])⟩

/-! ## Structure of a successful settlement -/

/-- A successful `settlePayment` call found a bill with the requested id;
the returned bill is that bill with `paidAmount` increased by the settled
amount, `pendingAmount` recomputed, `status` recomputed, and all other
fields kept; the returned store replaces exactly the id-matching rows of
the `bills` table with the returned bill and keeps every other table. -/
theorem settlePayment_elim {s : Store} {bid : Nat} {a : ℚ} {s' : Store}
    {u : Bill} (h : settlePayment s bid a = .ok (s', u)) :
    ∃ bill, s.bills.find? (fun b => b.id == bid) = some bill ∧
      u.id = bill.id ∧ u.patientId = bill.patientId ∧
      u.billDate = bill.billDate ∧ u.totalAmount = bill.totalAmount ∧
      u.paidAmount = bill.paidAmount + a ∧
      u.pendingAmount = bill.totalAmount - (bill.paidAmount + a) ∧
      u.status = (if bill.totalAmount - (bill.paidAmount + a) ≤ 0
                  then "paid" else "pending") ∧
      s'.patients = s.patients ∧ s'.visits = s.visits ∧
      s'.medicines = s.medicines ∧ s'.treatments = s.treatments ∧
      s'.billTreatmentItems = s.billTreatmentItems ∧
      s'.billMedicineItems = s.billMedicineItems ∧
      s'.expenses = s.expenses ∧ s'.nextId = s.nextId ∧
      s'.bills = s.bills.map (fun b => if b.id == bid then u else b) := by
  unfold settlePayment at h
  split at h
  · exact absurd h (by simp)
  · next bill hfind =>
      injection h with h
      injection h with h1 h2
      subst h1
      subst h2
      exact ⟨bill, hfind, rfl, rfl, rfl, rfl, rfl, rfl, rfl, rfl, rfl, rfl,
        rfl, rfl, rfl, rfl, rfl, rfl⟩

/-! ## C6: overpayment policy -/

/-- C6 — For an existing bill whose stored fields satisfy
`pendingAmount = totalAmount - paidAmount`, settling an amount that exceeds
the pending amount is accepted (the call resolves, it is not rejected with
an error): the stored `pendingAmount` becomes negative, the `status` becomes
`"paid"`, and the paid amount is credited in full (not clamped). -/
theorem settlePayment_overpayment_accepted
    (s : Store) (bid : Nat) (amount : ℚ) (bill : Bill) (s' : Store) (u : Bill)
    (hfind : s.bills.find? (fun b => b.id == bid) = some bill)
    (hinv : bill.pendingAmount = bill.totalAmount - bill.paidAmount)
    (hover : bill.pendingAmount < amount)
    (hsettle : settlePayment s bid amount = .ok (s', u)) :
    (settlePayment s bid amount).isOk = true ∧
    u.pendingAmount < 0 ∧ u.status = "paid" ∧
    u.paidAmount = bill.paidAmount + amount ∧
    u.pendingAmount = bill.pendingAmount - amount := by
  obtain ⟨bill', hfind', _, _, _, _, hpaid, hpend, hstat, _⟩ :=
    settlePayment_elim hsettle
  rw [hfind] at hfind'
  injection hfind' with hb
  subst hb
  have hneg : u.pendingAmount < 0 := by rw [hpend]; linarith
  refine ⟨by rw [hsettle]; rfl, hneg, ?_, hpaid, by rw [hpend, hinv]; ring⟩
  rw [hstat, if_pos (by rw [← hpend]; linarith)]

/-- A pre-settlement demonstration bill: total 100, paid 40, pending 60. -/
def demoBill : Bill := ⟨0, 1, 0, 100, 40, 60, "pending"⟩

/-- A store holding only `demoBill`. -/
def demoStore : Store := { Store.empty with bills := [demoBill], nextId := 1 }

/-- The bill resulting from settling 70 against `demoBill`. -/
def demoBillOver : Bill := ⟨0, 1, 0, 100, 110, -10, "paid"⟩

/-- The store resulting from settling 70 against `demoBill` in `demoStore`. -/
def demoStoreOver : Store := { Store.empty with bills := [demoBillOver], nextId := 1 }

/-- Witness for C6: settling 70 against a bill with `pendingAmount = 60`
stores `pendingAmount = -10` and `status = "paid"`. -/
theorem settlePayment_overpayment_accepted_witness :
    settlePayment demoStore 0 70 = .ok (demoStoreOver, demoBillOver) ∧
    (settlePayment demoStore 0 70).isOk = true ∧
    demoBillOver.pendingAmount < 0 ∧ demoBillOver.status = "paid" ∧
    demoBillOver.paidAmount = demoBill.paidAmount + 70 ∧
    demoBillOver.pendingAmount = demoBill.pendingAmount - 70 := by
  have hs : settlePayment demoStore 0 70 = .ok (demoStoreOver, demoBillOver) := by
    norm_num [settlePayment, demoStore, demoBill, demoStoreOver, demoBillOver,
      Store.empty, List.find?]
  have hmain := settlePayment_overpayment_accepted demoStore 0 70 demoBill
    demoStoreOver demoBillOver
    (by norm_num [demoStore, demoBill, Store.empty, List.find?])
    (by norm_num [demoBill]) (by norm_num [demoBill]) hs
  exact ⟨hs, hmain⟩

/-! ## C10: settlement frame -/

/-- C10 — `settlePayment` modifies only the `paidAmount`, `pendingAmount`
and `status` fields of the targeted bill.  For a store whose bill ids are
unique (they are a primary key), a successful settlement leaves every other
table untouched, leaves every bill whose id differs from the target
untouched, and preserves the target bill's `id`, `patientId`, `billDate`
and `totalAmount`; the conclusion is stated over any positionally
corresponding pair of pre/post bills. -/
theorem settlePayment_frame
    (s : Store) (bid : Nat) (a : ℚ) (s' : Store) (u b1 b2 : Bill)
    (hids : (s.bills.map (fun b => b.id)).Nodup)
    (h : settlePayment s bid a = .ok (s', u))
    (hz : (b1, b2) ∈ s.bills.zip s'.bills) :
    s'.patients = s.patients ∧ s'.visits = s.visits ∧
    s'.medicines = s.medicines ∧ s'.treatments = s.treatments ∧
    s'.billTreatmentItems = s.billTreatmentItems ∧
    s'.billMedicineItems = s.billMedicineItems ∧
    s'.expenses = s.expenses ∧ s'.nextId = s.nextId ∧
    s'.bills.length = s.bills.length ∧
    (b1.id ≠ bid → b2 = b1) ∧
    b2.id = b1.id ∧ b2.patientId = b1.patientId ∧
    b2.billDate = b1.billDate ∧ b2.totalAmount = b1.totalAmount := by
  obtain ⟨bill, hfind, huid, hupid, hudate, hutot, _, _, _, hp, hv, hm, ht,
    hbt, hbm, he, hn, hbills⟩ := settlePayment_elim h
  have hzip : s.bills.zip s'.bills = s.bills.map (fun b => (b, if b.id == bid then u else b)) := by
    rw [hbills]
    have := List.zip_map' (fun b : Bill => b) (fun b : Bill => if b.id == bid then u else b) s.bills
    simpa using this
  rw [hzip] at hz
  obtain ⟨x, hx, hpair⟩ := List.mem_map.mp hz
  have hb1 : b1 = x := (congrArg Prod.fst hpair).symm
  subst hb1
  have hb2 : (if b1.id == bid then u else b1) = b2 := congrArg Prod.snd hpair
  have hframe : b1.id ≠ bid → b2 = b1 := by
    intro hne
    rw [← hb2, if_neg (by simpa using hne)]
  refine ⟨hp, hv, hm, ht, hbt, hbm, he, hn, by rw [hbills, List.length_map],
    hframe, ?_, ?_, ?_, ?_⟩ <;>
  · by_cases hcase : b1.id = bid
    · have hbillmem : bill ∈ s.bills := List.mem_of_find?_eq_some hfind
      have hbid : bill.id = bid := find?_bill_id hfind
      have hb1bill : b1 = bill :=
        List.inj_on_of_nodup_map hids hx hbillmem (by rw [hcase, hbid])
      rw [← hb2, if_pos (by simpa using hcase)]
      subst hb1bill
      simp [huid, hupid, hudate, hutot]
    · rw [hframe hcase]

/-- A second bill, untouched by settlements against `demoBill`. -/
def demoBillOther : Bill := ⟨1, 2, 5, 200, 0, 200, "pending"⟩

/-- A store holding `demoBill` and `demoBillOther`. -/
def demoStoreTwo : Store :=
  { Store.empty with bills := [demoBill, demoBillOther], nextId := 2 }

/-- `demoStoreTwo` after settling 70 against bill 0. -/
def demoStoreTwoAfter : Store :=
  { Store.empty with bills := [demoBillOver, demoBillOther], nextId := 2 }

/-- Witness for C10: settling 70 against bill 0 in a two-bill store leaves
the other bill and every other table untouched. -/
theorem settlePayment_frame_witness :
    demoStoreTwoAfter.patients = demoStoreTwo.patients ∧
    demoStoreTwoAfter.visits = demoStoreTwo.visits ∧
    demoStoreTwoAfter.medicines = demoStoreTwo.medicines ∧
    demoStoreTwoAfter.treatments = demoStoreTwo.treatments ∧
    demoStoreTwoAfter.billTreatmentItems = demoStoreTwo.billTreatmentItems ∧
    demoStoreTwoAfter.billMedicineItems = demoStoreTwo.billMedicineItems ∧
    demoStoreTwoAfter.expenses = demoStoreTwo.expenses ∧
    demoStoreTwoAfter.nextId = demoStoreTwo.nextId ∧
    demoStoreTwoAfter.bills.length = demoStoreTwo.bills.length ∧
    (demoBillOther.id ≠ 0 → demoBillOther = demoBillOther) ∧
    demoBillOther.id = demoBillOther.id ∧
    demoBillOther.patientId = demoBillOther.patientId ∧
    demoBillOther.billDate = demoBillOther.billDate ∧
    demoBillOther.totalAmount = demoBillOther.totalAmount :=
  settlePayment_frame demoStoreTwo 0 70 demoStoreTwoAfter demoBillOver
    demoBillOther demoBillOther
    (by decide)
    (by norm_num [settlePayment, demoStoreTwo, demoStoreTwoAfter, demoBill,
      demoBillOther, demoBillOver, Store.empty, List.find?])
    (by simp [demoStoreTwo, demoStoreTwoAfter, Store.empty, List.zip_cons_cons])

/-! ## C5: settlement monotonicity -/

/-- Through any sequence of settlements with non-negative amounts, the bill
found at a given id keeps existing and its `paidAmount` never decreases. -/
theorem settleAll_find_paid_mono (bid : Nat) :
    ∀ (calls : List (Nat × ℚ)) (s : Store) (b : Bill),
      (∀ c ∈ calls, 0 ≤ c.2) →
      s.bills.find? (fun x => x.id == bid) = some b →
      ∃ b', (settleAll s calls).bills.find? (fun x => x.id == bid) = some b' ∧
        b.paidAmount ≤ b'.paidAmount := by
  intro calls
  induction calls with
  | nil => intro s b _ hfind; exact ⟨b, hfind, le_refl _⟩
  | cons c rest ih =>
      intro s b hnn hfind
      have hsall : settleAll s (c :: rest) =
          settleAll (match settlePayment s c.1 c.2 with
            | .ok r => r.1
            | .error _ => s) rest := by
        simp [settleAll, List.foldl_cons]
      have hstep : ∃ b₁, (((match settlePayment s c.1 c.2 with
          | .ok r => r.1
          | .error _ => s : Store)).bills.find? (fun x => x.id == bid)) = some b₁ ∧
          b.paidAmount ≤ b₁.paidAmount := by
        cases hsp : settlePayment s c.1 c.2 with
        | error e => exact ⟨b, hfind, le_refl _⟩
        | ok r =>
            obtain ⟨s', u⟩ := r
            obtain ⟨bill, hfind', huid, _, _, _, hpaid, _, _, _, _, _, _, _,
              _, _, _, hbills⟩ := settlePayment_elim hsp
            have hbillid : bill.id = c.1 := find?_bill_id hfind'
            have hufix : ∀ x : Bill,
                ((if x.id == c.1 then u else x).id == bid) = (x.id == bid) := by
              intro x
              by_cases hx : (x.id == c.1) = true
              · rw [if_pos hx]
                have hux : u.id = x.id := by
                  have hxc : x.id = c.1 := by simpa using hx
                  rw [huid, hbillid, hxc]
                rw [hux]
              · rw [if_neg hx]
            have hfmap : s'.bills.find? (fun x => x.id == bid) =
                (s.bills.find? (fun x => x.id == bid)).map
                  (fun x => if x.id == c.1 then u else x) := by
              rw [hbills]
              exact find?_map_pres _ _ hufix s.bills
            rw [hfind] at hfmap
            by_cases hc : (b.id == c.1) = true
            · have hbc : b.id = c.1 := by simpa using hc
              have hbidc : bid = c.1 := by rw [← find?_bill_id hfind, hbc]
              subst hbidc
              rw [hfind] at hfind'
              injection hfind' with hbb
              subst hbb
              refine ⟨u, by simpa [hbc] using hfmap, ?_⟩
              rw [hpaid]
              have := hnn c (List.mem_cons_self c rest)
              linarith
            · have hbc : ¬ b.id = c.1 := by simpa using hc
              exact ⟨b, by simpa [hbc] using hfmap, le_refl _⟩
      obtain ⟨b₁, hfind₁, hle₁⟩ := hstep
      obtain ⟨b', hfind', hle'⟩ := ih _ b₁
        (fun x hx => hnn x (List.mem_cons_of_mem c hx)) hfind₁
      exact ⟨b', by rw [hsall]; exact hfind', le_trans hle₁ hle'⟩

/-- C5 — `settlePayment` is monotonic: for an existing bill and any finite
sequence of settlements with non-negative amounts, the bill's `paidAmount`
after the sequence is at least its `paidAmount` before it. -/
theorem settlePayment_sequence_monotonic (s : Store) (bid : Nat)
    (calls : List (Nat × ℚ)) (b b' : Bill)
    (hnn : ∀ c ∈ calls, 0 ≤ c.2)
    (hb : s.bills.find? (fun x => x.id == bid) = some b)
    (hb' : (settleAll s calls).bills.find? (fun x => x.id == bid) = some b') :
    b.paidAmount ≤ b'.paidAmount := by
  obtain ⟨b'', hfind'', hle⟩ := settleAll_find_paid_mono bid calls s b hnn hb
  rw [hb'] at hfind''
  injection hfind'' with h
  rw [h]
  exact hle

/-- The bill resulting from settling 10 and then 20 against `demoBill`. -/
def demoBillTwoSettled : Bill := ⟨0, 1, 0, 100, 70, 30, "pending"⟩

/-- Witness for C5: settling 10 then 20 against a bill with `paidAmount = 40`
yields `paidAmount = 70 ≥ 40`. -/
theorem settlePayment_sequence_monotonic_witness :
    demoBill.paidAmount ≤ demoBillTwoSettled.paidAmount :=
  settlePayment_sequence_monotonic demoStore 0 [(0, 10), (0, 20)]
    demoBill demoBillTwoSettled
    (by norm_num)
    (by norm_num [demoStore, demoBill, Store.empty, List.find?])
    (by norm_num [settleAll, settlePayment, demoStore, demoBill,
      demoBillTwoSettled, Store.empty, List.find?, List.foldl])

/-! ## C2: the bill-state invariant -/

/-- `updateMedicineStock` never touches the `bills` table. -/
theorem updateMedicineStock_bills {s : Store} {i : Nat} {q : Int} {e : ℚ}
    {t : Store} (h : updateMedicineStock s i q e = .ok t) : t.bills = s.bills := by
  unfold updateMedicineStock at h
  split at h <;> injection h with h <;> rw [← h]

/-- The treatment-item insertion loop never touches the `bills` table. -/
theorem treatmentFold_bills (bi : Nat) :
    ∀ (l : List InsertBillTreatmentItem) (acc : Store),
      (l.foldl (fun a item => insertTreatmentItemRow a bi item) acc).bills =
        acc.bills := by
  intro l
  induction l with
  | nil => intro acc; rfl
  | cons x xs ih => intro acc; rw [List.foldl_cons]; exact ih _

/-- The medicine-item loop (insert row, then consume stock) never touches
the `bills` table. -/
theorem medicineFold_bills (bi : Nat) :
    ∀ (l : List InsertBillMedicineItem) (acc t : Store),
      (l.foldlM (fun a item =>
        updateMedicineStock (insertMedicineItemRow a bi item)
          item.medicineId item.quantity item.amount) acc) = .ok t →
      t.bills = acc.bills := by
  intro l
  induction l with
  | nil =>
      intro acc t h
      simp only [List.foldlM_nil, pure, Except.pure] at h
      injection h with h
      rw [← h]
  | cons x xs ih =>
      intro acc t h
      simp only [List.foldlM_cons, bind, Except.bind] at h
      split at h
      · exact absurd h (by simp)
      · next u hu =>
          rw [ih _ _ h, updateMedicineStock_bills hu]; rfl

/-- A successful `createBill` appends exactly the created bill to the
`bills` table; the created bill carries the fresh id and satisfies the
bill-state invariant at birth. -/
theorem createBill_bills_shape
    {s : Store} {now : Int} {billData : InsertBill}
    {tD : List InsertBillTreatmentItem} {mD : List InsertBillMedicineItem}
    {s₀ : Store} {created : Bill}
    (h : createBill s now billData tD mD = .ok (s₀, created)) :
    s₀.bills = s.bills ++ [created] ∧ created.id = s.nextId ∧ billOk created := by
  unfold createBill at h
  simp only [bind, Except.bind, pure, Except.pure] at h
  split at h
  · exact absurd h (by simp)
  · next t ht =>
      injection h with h
      injection h with h1 h2
      subst h1
      subst h2
      refine ⟨?_, rfl, ?_⟩
      · rw [medicineFold_bills _ _ _ _ ht, treatmentFold_bills]
      · constructor
        · rfl
        · by_cases hc : (tD.foldl (fun sum item => sum + item.amount) 0 +
              mD.foldl (fun sum item => sum + item.amount) 0) -
              billData.paidAmount ≤ 0 <;> simp [hc]

/-- Every bill returned by a successful settlement satisfies the bill-state
invariant, whatever the prior state of the bill was. -/
theorem billOk_settled {st : Store} {bid : Nat} {a : ℚ} {s' : Store} {u : Bill}
    (h : settlePayment st bid a = .ok (s', u)) : billOk u := by
  obtain ⟨bill, _, _, _, _, hutot, hpaid, hpend, hstat, _⟩ :=
    settlePayment_elim h
  constructor
  · rw [hpend, hutot, hpaid]
  · rw [hstat, hpend]
    by_cases hc : bill.totalAmount - (bill.paidAmount + a) ≤ 0 <;> simp [hc]

/-- The bill-state invariant at a fixed id is preserved by any sequence of
settlements. -/
theorem settleAll_billOk (bid : Nat) :
    ∀ (calls : List (Nat × ℚ)) (s : Store),
      (∀ b ∈ s.bills, b.id = bid → billOk b) →
      ∀ b ∈ (settleAll s calls).bills, b.id = bid → billOk b := by
  intro calls
  induction calls with
  | nil => intro s hP; simpa [settleAll] using hP
  | cons c rest ih =>
      intro s hP
      have hsall : settleAll s (c :: rest) =
          settleAll (match settlePayment s c.1 c.2 with
            | .ok r => r.1
            | .error _ => s) rest := by
        simp [settleAll, List.foldl_cons]
      rw [hsall]
      apply ih
      cases hsp : settlePayment s c.1 c.2 with
      | error e => exact hP
      | ok r =>
          obtain ⟨s', u⟩ := r
          intro b hb hbid
          obtain ⟨bill, _, _, _, _, _, _, _, _, _, _, _, _, _, _, _, _,
            hbills⟩ := settlePayment_elim hsp
          rw [hbills] at hb
          obtain ⟨x, hx, hfx⟩ := List.mem_map.mp hb
          by_cases hxc : (x.id == c.1) = true
          · rw [← hfx, if_pos hxc]
            exact billOk_settled hsp
          · rw [← hfx, if_neg hxc]
            refine hP x hx ?_
            rw [← hbid, ← hfx, if_neg hxc]

/-- C2 — A bill created by `createBill` satisfies
`pendingAmount = totalAmount - paidAmount` and
`status = "paid" ↔ pendingAmount ≤ 0` at creation and after any sequence of
`settlePayment` calls (assuming the store's id counter is fresh, as the
database identity column guarantees). -/
theorem createBill_settle_invariant
    (s : Store) (now : Int) (billData : InsertBill)
    (tD : List InsertBillTreatmentItem) (mD : List InsertBillMedicineItem)
    (calls : List (Nat × ℚ)) (s₀ : Store) (created b : Bill)
    (hfresh : ∀ x ∈ s.bills, x.id ≠ s.nextId)
    (hcreate : createBill s now billData tD mD = .ok (s₀, created))
    (hmem : b ∈ (settleAll s₀ calls).bills)
    (hid : b.id = created.id) :
    b.pendingAmount = b.totalAmount - b.paidAmount ∧
      (b.status = "paid" ↔ b.pendingAmount ≤ 0) := by
  obtain ⟨hbills, hcid, hcok⟩ := createBill_bills_shape hcreate
  have hP : ∀ x ∈ s₀.bills, x.id = created.id → billOk x := by
    intro x hx hxid
    rw [hbills] at hx
    rcases List.mem_append.mp hx with hold | hnew
    · exact absurd (hxid.trans hcid) (hfresh x hold)
    · rw [List.mem_singleton.mp hnew]
      exact hcok
  exact settleAll_billOk created.id calls s₀ hP b hmem hid

/-- The C1-witness bill after settling its remaining 60. -/
def demoBillSettled : Bill := ⟨0, 1, 0, 100, 100, 0, "paid"⟩

/-- Witness for C2: the bill created in the C1 witness, settled with 60,
still satisfies the invariant (`pending = 0`, `status = "paid"`). -/
theorem createBill_settle_invariant_witness :
    demoBillSettled.pendingAmount =
      demoBillSettled.totalAmount - demoBillSettled.paidAmount ∧
    (demoBillSettled.status = "paid" ↔ demoBillSettled.pendingAmount ≤ 0) :=
  createBill_settle_invariant Store.empty 0 ⟨1, 40⟩ [⟨1, "X", 100⟩] []
    [(0, 60)] demoStoreC1 demoBillC1 demoBillSettled
    (by simp [Store.empty])
    (by norm_num [createBill, insertTreatmentItemRow, Store.empty, demoStoreC1,
      demoBillC1, bind, Except.bind, pure, Except.pure])
    (by norm_num [settleAll, settlePayment, demoStoreC1, demoBillC1,
      demoBillSettled, List.find?, List.foldl])
    rfl

/-! ## C3: inventory effect of a bill's medicine line -/

/-- Consuming stock of a different medicine id leaves the lookup of `mid`
unchanged. -/
theorem updateMedicineStock_find_other {s : Store} {i : Nat} {q : Int}
    {e : ℚ} {t : Store} {mid : Nat} (hne : i ≠ mid)
    (h : updateMedicineStock s i q e = .ok t) :
    t.medicines.find? (fun x => x.id == mid) =
      s.medicines.find? (fun x => x.id == mid) := by
  unfold updateMedicineStock at h
  split at h
  · next med hmed =>
      injection h with h
      subst h
      have hf : ∀ x : Medicine,
          (((if x.id == i then
              { x with quantity := med.quantity - q,
                       totalEarnings := some (med.totalEarnings.getD 0 + e) }
            else x) : Medicine).id == mid) = (x.id == mid) := by
        intro x
        by_cases hx : (x.id == i) = true
        · rw [if_pos hx]
        · rw [if_neg hx]
      rw [show ({ s with medicines := s.medicines.map (fun x =>
          if x.id == i then
            { x with quantity := med.quantity - q,
                     totalEarnings := some (med.totalEarnings.getD 0 + e) }
          else x) } : Store).medicines = s.medicines.map (fun x =>
          if x.id == i then
            { x with quantity := med.quantity - q,
                     totalEarnings := some (med.totalEarnings.getD 0 + e) }
          else x) from rfl]
      rw [find?_map_pres _ _ hf s.medicines]
      cases hfind : s.medicines.find? (fun x => x.id == mid) with
      | none => rfl
      | some m' =>
          have hmne : ¬ (m'.id == i) = true := by
            rw [find?_medicine_id hfind]
            simpa using hne.symm
          have hmne2 : ¬ m'.id = i := by simpa using hmne
          simp [hmne2]
  · injection h with h
    subst h
    rfl

/-- Consuming stock of medicine `mid` rewrites exactly the looked-up row:
its quantity drops by the consumed amount and its cumulative earnings grow
by the line amount. -/
theorem updateMedicineStock_find_self {s : Store} {mid : Nat} {q : Int}
    {e : ℚ} {t : Store} {m : Medicine}
    (hm : s.medicines.find? (fun x => x.id == mid) = some m)
    (h : updateMedicineStock s mid q e = .ok t) :
    t.medicines.find? (fun x => x.id == mid) =
      some { m with quantity := m.quantity - q,
                    totalEarnings := some (m.totalEarnings.getD 0 + e) } := by
  unfold updateMedicineStock at h
  rw [hm] at h
  injection h with h
  subst h
  have hf : ∀ x : Medicine,
      (((if x.id == mid then
          { x with quantity := m.quantity - q,
                   totalEarnings := some (m.totalEarnings.getD 0 + e) }
        else x) : Medicine).id == mid) = (x.id == mid) := by
    intro x
    by_cases hx : (x.id == mid) = true
    · rw [if_pos hx]
    · rw [if_neg hx]
  rw [show ({ s with medicines := s.medicines.map (fun x =>
      if x.id == mid then
        { x with quantity := m.quantity - q,
                 totalEarnings := some (m.totalEarnings.getD 0 + e) }
      else x) } : Store).medicines = s.medicines.map (fun x =>
      if x.id == mid then
        { x with quantity := m.quantity - q,
                 totalEarnings := some (m.totalEarnings.getD 0 + e) }
      else x) from rfl]
  rw [find?_map_pres _ _ hf s.medicines, hm]
  have hmid : m.id = mid := find?_medicine_id hm
  simp [hmid]

/-- The treatment-item insertion loop never touches the `medicines` table. -/
theorem treatmentFold_medicines (bi : Nat) :
    ∀ (l : List InsertBillTreatmentItem) (acc : Store),
      (l.foldl (fun a item => insertTreatmentItemRow a bi item) acc).medicines =
        acc.medicines := by
  intro l
  induction l with
  | nil => intro acc; rfl
  | cons x xs ih => intro acc; rw [List.foldl_cons]; exact ih _

/-- The medicine-item loop leaves the lookup of a medicine id unchanged as
long as no processed line references that id. -/
theorem medicineFold_find_ne (bi mid : Nat) :
    ∀ (l : List InsertBillMedicineItem) (acc t : Store),
      (∀ x ∈ l, x.medicineId ≠ mid) →
      (l.foldlM (fun a item =>
        updateMedicineStock (insertMedicineItemRow a bi item)
          item.medicineId item.quantity item.amount) acc) = .ok t →
      t.medicines.find? (fun x => x.id == mid) =
        acc.medicines.find? (fun x => x.id == mid) := by
  intro l
  induction l with
  | nil =>
      intro acc t _ h
      simp only [List.foldlM_nil, pure, Except.pure] at h
      injection h with h
      rw [← h]
  | cons x xs ih =>
      intro acc t hne h
      simp only [List.foldlM_cons, bind, Except.bind] at h
      split at h
      · exact absurd h (by simp)
      · next u hu =>
          have hx : x.medicineId ≠ mid := hne x (List.mem_cons_self x xs)
          have h1 : u.medicines.find? (fun y => y.id == mid) =
              (insertMedicineItemRow acc bi x).medicines.find?
                (fun y => y.id == mid) :=
            updateMedicineStock_find_other hx hu
          rw [ih _ _ (fun y hy => hne y (List.mem_cons_of_mem x hy)) h, h1]
          rfl

/-- C3 — Creating a bill whose medicine lines contain exactly one line for
medicine `mid` (quantity Q, amount A) turns that medicine's prior quantity P
into P − Q and its prior cumulative earnings E into E + A.  The quantity is
an unbounded integer: nothing here enforces a lower bound, so P − Q may be
negative (the witness exhibits a negative resulting stock). -/
theorem createBill_medicine_stock_effect
    (s : Store) (now : Int) (billData : InsertBill)
    (tD : List InsertBillTreatmentItem)
    (pre post : List InsertBillMedicineItem) (item : InsertBillMedicineItem)
    (mid : Nat) (m m' : Medicine) (s' : Store) (b : Bill)
    (hpre : ∀ x ∈ pre, x.medicineId ≠ mid)
    (hpost : ∀ x ∈ post, x.medicineId ≠ mid)
    (hitem : item.medicineId = mid)
    (hm : s.medicines.find? (fun x => x.id == mid) = some m)
    (hcreate : createBill s now billData tD (pre ++ item :: post) = .ok (s', b))
    (hm' : s'.medicines.find? (fun x => x.id == mid) = some m') :
    m'.quantity = m.quantity - item.quantity ∧
      m'.totalEarnings = some (m.totalEarnings.getD 0 + item.amount) := by
  unfold createBill at hcreate
  simp only [bind, Except.bind, pure, Except.pure] at hcreate
  split at hcreate
  · exact absurd hcreate (by simp)
  · next t ht =>
      injection hcreate with hc
      injection hc with hc1 hc2
      subst hc1
      rw [List.foldlM_append] at ht
      simp only [bind, Except.bind] at ht
      split at ht
      · exact absurd ht (by simp)
      · next t1 hp =>
          rw [List.foldlM_cons] at ht
          simp only [bind, Except.bind] at ht
          have hfind1 : t1.medicines.find? (fun x => x.id == mid) = some m := by
            rw [medicineFold_find_ne _ mid pre _ _ hpre hp,
              treatmentFold_medicines]
            exact hm
          split at ht
          · exact absurd ht (by simp)
          · next t2 hstep =>
              rw [hitem] at hstep
              have hfind1i : (insertMedicineItemRow t1 s.nextId
                  item).medicines.find? (fun x => x.id == mid) = some m := hfind1
              have hfind2 : t2.medicines.find? (fun x => x.id == mid) =
                  some { m with
                    quantity := m.quantity - item.quantity,
                    totalEarnings :=
                      some (m.totalEarnings.getD 0 + item.amount) } :=
                updateMedicineStock_find_self hfind1i hstep
              have hfinal : t.medicines.find? (fun x => x.id == mid) =
                  t2.medicines.find? (fun x => x.id == mid) :=
                medicineFold_find_ne _ mid post _ _ hpost ht
              rw [hfinal, hfind2] at hm'
              injection hm' with hmm
              rw [← hmm]
              exact ⟨rfl, rfl⟩

/-- A medicine with 2 units on hand and no prior earnings. -/
def demoMedicine : Medicine := ⟨5, "Amox", 50, 2, some 0⟩

/-- `demoMedicine` after a bill consumed 5 units for 250: stock −3. -/
def demoMedicineAfter : Medicine := ⟨5, "Amox", 50, -3, some 250⟩

/-- A store holding only `demoMedicine`. -/
def demoMedStore : Store := { Store.empty with medicines := [demoMedicine] }

/-- A bill medicine line consuming 5 units of medicine 5 for 250. -/
def demoMedItem : InsertBillMedicineItem := ⟨5, "Amox", 5, 50, 250⟩

/-- The bill created from `demoMedItem` with paid amount 250. -/
def demoMedBill : Bill := ⟨0, 1, 0, 250, 250, 0, "paid"⟩

/-- The store after creating the bill of `demoMedItem` in `demoMedStore`. -/
def demoMedStoreAfter : Store :=
  { patients := [], visits := [], medicines := [demoMedicineAfter],
    treatments := [], bills := [demoMedBill], billTreatmentItems := [],
    billMedicineItems := [⟨1, 0, 5, "Amox", 5, 50, 250⟩], expenses := [],
    nextId := 2 }

/-- Witness for C3: consuming 5 units of a 2-unit stock leaves quantity −3
(negative, unrejected) and earnings 0 + 250. -/
theorem createBill_medicine_stock_effect_witness :
    demoMedicineAfter.quantity = demoMedicine.quantity - demoMedItem.quantity ∧
    demoMedicineAfter.totalEarnings =
      some (demoMedicine.totalEarnings.getD 0 + demoMedItem.amount) ∧
    demoMedicineAfter.quantity < 0 := by
  have hmain := createBill_medicine_stock_effect demoMedStore 0 ⟨1, 250⟩ []
    [] [] demoMedItem 5 demoMedicine demoMedicineAfter demoMedStoreAfter
    demoMedBill (by simp) (by simp) rfl rfl
    (by norm_num [createBill, insertMedicineItemRow, updateMedicineStock,
      demoMedStore, demoMedicine, demoMedicineAfter, demoMedItem, demoMedBill,
      demoMedStoreAfter, Store.empty, bind, Except.bind, pure, Except.pure,
      List.find?, List.foldlM])
    rfl
  exact ⟨hmain.1, hmain.2, by decide⟩

/-! ## C4: behaviour of stock consumption for a missing medicine -/

/-- C4, counterexample to the claim as stated: with no medicine of id 5 in
the store, `updateMedicineStock` does NOT fail with a NotFound error — it
resolves normally (`.ok`) with the store unchanged, i.e. it silently
no-ops. -/
theorem updateMedicineStock_absent_counterexample :
    Store.empty.medicines.find? (fun m => m.id == 5) = none ∧
    updateMedicineStock Store.empty 5 2 10 = .ok Store.empty :=
  ⟨rfl, rfl⟩

/-- C4 amended — when the given `medicineId` does not reference an existing
medicine, `updateMedicineStock` silently no-ops: it resolves without error
and no row of any table is changed. -/
theorem updateMedicineStock_absent_noop
    (s : Store) (id : Nat) (q : Int) (e : ℚ)
    (h : s.medicines.find? (fun m => m.id == id) = none) :
    updateMedicineStock s id q e = .ok s := by
  unfold updateMedicineStock
  rw [h]

/-- Witness for the amended C4: consuming medicine id 7 in a store that only
holds medicine id 5 resolves with the store unchanged. -/
theorem updateMedicineStock_absent_noop_witness :
    updateMedicineStock demoMedStore 7 1 5 = .ok demoMedStore :=
  updateMedicineStock_absent_noop demoMedStore 7 1 5 rfl

/-! ## C7: monthly report invariants -/

/-- C7 — For every queried month range, the monthly report satisfies
`totalEarnings = treatmentEarnings + medicineEarnings`,
`profit = totalEarnings - totalExpenses`, and `patientCount` is the number
of distinct `patientId` values among visits whose `visitDate` lies in the
month's range. -/
theorem getMonthlyReport_invariants (s : Store) (startDate endDate : Int) :
    (getMonthlyReport s startDate endDate).totalEarnings =
      (getMonthlyReport s startDate endDate).treatmentEarnings +
        (getMonthlyReport s startDate endDate).medicineEarnings ∧
    (getMonthlyReport s startDate endDate).profit =
      (getMonthlyReport s startDate endDate).totalEarnings -
        (getMonthlyReport s startDate endDate).totalExpenses ∧
    (getMonthlyReport s startDate endDate).patientCount =
      distinctPatientsInRange s startDate endDate := by
  refine ⟨rfl, rfl, ?_⟩
  simp [getMonthlyReport, distinctPatientsInRange, List.card_toFinset]

/-! ## C9: dashboard today-patients window -/

/-- A store with a single visit falling exactly on the start of tomorrow. -/
def dashboardBoundaryStore : Store :=
  { Store.empty with visits := [⟨0, 1, 86400000, "", "", none, none⟩] }

/-- C9, counterexample to the claim as stated: with a visit at exactly the
start of tomorrow (86400000 ms after the start of today), the dashboard
counts it as a today-patient, so `todayPatients` differs from the distinct
count over the half-open window `[start of today, start of tomorrow)`. -/
theorem getDashboardStats_todayPatients_counterexample :
    (getDashboardStats dashboardBoundaryStore 0 86400000).todayPatients ≠
      distinctPatientsHalfOpen dashboardBoundaryStore 0 86400000 := by
  decide

/-- C9 amended — `todayPatients` is the number of distinct `patientId`
values among visits whose `visitDate` lies in the CLOSED interval from the
start of today to the start of tomorrow, both bounds inclusive (the source
filters with `gte` and `lte`). -/
theorem getDashboardStats_todayPatients_closed
    (s : Store) (today tomorrow : Int) :
    (getDashboardStats s today tomorrow).todayPatients =
      distinctPatientsInRange s today tomorrow := by
  simp [getDashboardStats, distinctPatientsInRange, List.card_toFinset]

/-! ## C8: the six-month report window -/

/-- A concrete month-index-to-date-range conversion used to instantiate the
reports route on explicit inputs. -/
def demoMonthRange : Int → Int × Int := fun m => (m * 1000, m * 1000 + 999)

/-- C8, counterexample to the claim as stated: requesting the reports page
for reference month 100 while the current month is 200 yields a
`last6Months` whose month labels are the six months trailing the CURRENT
month (195…200), not the six months trailing the reference month
(95…100). -/
theorem getReports_last6Months_counterexample :
    ((getReports Store.empty demoMonthRange 100 200).last6Months.map
      Prod.fst) ≠ [95, 96, 97, 98, 99, 100] := by
  decide

/-- C8 amended — `last6Months` consists of the monthly reports of the six
months trailing the month current at request time (`today`), current month
included, oldest first, each entry labeled by its month; the supplied
reference month plays no role in this list. -/
theorem getReports_last6Months_trailing_current (s : Store)
    (monthRange : Int → Int × Int) (selectedMonth today : Int) :
    (getReports s monthRange selectedMonth today).last6Months =
      [today - 5, today - 4, today - 3, today - 2, today - 1, today].map
        (fun m => (m, getMonthlyReport s (monthRange m).1 (monthRange m).2)) := by
  simp only [getReports, List.range_succ, List.range_zero, List.map_append,
    List.map_cons, List.map_nil, List.nil_append, List.cons_append]
  norm_num
